import Mathlib

/-!
Shallow embedding of `qemu_chrooter` (src/main.rs), a tool that parses the
output of `ldd` into a list of required shared libraries plus a dynamic
loader path, and then copies each of them (plus the primary executable)
into a chroot directory tree.

Strings are modelled as `List Char`.  Rust's `str::contains`,
`splitn(2, sep).nth(1)` and `rsplitn(2, sep).nth(1)` are modelled by
substring-occurrence search over `List Char` (`firstMatchIdx`,
`lastMatchIdx`, `afterFirst`, `beforeLast` below).  The filesystem is
modelled as an abstract environment `FsEnv` recording which of the
OS primitives (canonicalize / is_file / create_dir_all / copy) succeed;
the installer produces an explicit trace of performed operations.
-/

/-- Index of the first occurrence of `sep` as a contiguous substring of `s`
(the split point of Rust `s.splitn(2, sep)`), or `none` if `sep` does not
occur in `s`. -/
def firstMatchIdx (sep : List Char) : List Char → Option Nat
  | [] => if sep.isPrefixOf ([] : List Char) then some 0 else none
  | c :: t =>
    if sep.isPrefixOf (c :: t) then some 0
    else (firstMatchIdx sep t).map (· + 1)

/-- Index of the last occurrence of `sep` as a contiguous substring of `s`
(the split point of Rust `s.rsplitn(2, sep)`), or `none` if `sep` does not
occur in `s`. -/
def lastMatchIdx (sep : List Char) : List Char → Option Nat
  | [] => if sep.isPrefixOf ([] : List Char) then some 0 else none
  | c :: t =>
    match lastMatchIdx sep t with
    | some i => some (i + 1)
    | none => if sep.isPrefixOf (c :: t) then some 0 else none

/-- Rust `s.contains(sep)`: `sep` occurs as a contiguous substring of `s`. -/
def containsSub (sep s : List Char) : Bool :=
  (firstMatchIdx sep s).isSome

/-- Rust `s.splitn(2, sep).nth(1)`: everything after the FIRST occurrence
of `sep` in `s`, or `none` when `sep` does not occur. -/
def afterFirst (sep s : List Char) : Option (List Char) :=
  (firstMatchIdx sep s).map (fun i => s.drop (i + sep.length))

/-- Rust `s.rsplitn(2, sep).nth(1)`: everything before the LAST occurrence
of `sep` in `s`, or `none` when `sep` does not occur. -/
def beforeLast (sep s : List Char) : Option (List Char) :=
  (lastMatchIdx sep s).map (fun i => s.take i)

/-- Rust `str::trim`: drop leading and trailing whitespace characters. -/
def trimChars (s : List Char) : List Char :=
  ((s.dropWhile Char.isWhitespace).reverse.dropWhile Char.isWhitespace).reverse

/-- Separator token of a resolved-library line (main.rs:91, 94: `" => "`). -/
def sepArrow : List Char := " => ".toList

/-- Start of the parenthesized load-address annotation (main.rs:95, 110:
`" (0x"`). -/
def sepAddr : List Char := " (0x".toList

/-- Substring identifying the virtual dynamic shared object line
(main.rs:98: `"linux-vdso.so"`). -/
def vdsoTok : List Char := "linux-vdso.so".toList

/-- Substring identifying the dynamic loader line (main.rs:101:
`"ld-linux"`). -/
def ldTok : List Char := "ld-linux".toList

/-- Parse errors.  In the source all three cases return the single variant
`Error::UnexpectedLddOutput`; they are distinct return sites of `main`
(with distinct printed diagnostics), recorded here as distinct
constructors: `unexpectedFormat` is the `.ok_or(Error::UnexpectedLddOutput)`
on a library or loader line (main.rs:94-96, 110-111), `duplicateLoader` is
the early return after printing "Whoa, two loaders in the LDD output?"
(main.rs:104-107), and `missingLoader` is the return after printing "No
dynamic loader found for binary" once all lines are processed
(main.rs:116-120). -/
inductive ParseErr where
  | unexpectedFormat
  | duplicateLoader
  | missingLoader
deriving DecidableEq, Repr

/-- Parser state: the `libs` vector and the `loader` option of
main.rs:88-89. -/
structure PState where
  libs : List (List Char)
  loader : Option (List Char)
deriving DecidableEq, Repr

/-- Body of the per-line loop of main.rs:90-113.  A line containing
`" => "` is a resolved-library line: the text between the first `" => "`
and the last `" (0x"` is pushed onto `libs` (untrimmed, main.rs:94-97).
Otherwise a line containing `"linux-vdso.so"` is skipped (main.rs:98-100).
Otherwise a line containing `"ld-linux"` is the loader line: it is an
error if a loader was already captured; otherwise the text before the last
`" (0x"` is trimmed and stored (main.rs:101-112).  Any other line is
ignored. -/
def processLine (st : PState) (line : List Char) : Except ParseErr PState :=
  if containsSub sepArrow line then
    match (afterFirst sepArrow line).bind (fun x => beforeLast sepAddr x) with
    | none => .error .unexpectedFormat
    | some lib => .ok { st with libs := st.libs ++ [lib] }
  else if containsSub vdsoTok line then
    .ok st
  else if containsSub ldTok line then
    if st.loader.isSome then .error .duplicateLoader
    else
      match beforeLast sepAddr line with
      | none => .error .unexpectedFormat
      | some l => .ok { st with loader := some (trimChars l) }
  else
    .ok st

/-- The for loop of main.rs:90-113 over the lines of the report, with the
early returns of the loop body modelled by the `Except` short-circuit. -/
def parseLines (st : PState) : List (List Char) → Except ParseErr PState
  | [] => .ok st
  | l :: ls =>
    match processLine st l with
    | .error e => .error e
    | .ok st' => parseLines st' ls

/-- Parse a whole report (list of lines) starting from the empty state
(main.rs:88-113). -/
def parseLdd (lines : List (List Char)) : Except ParseErr PState :=
  parseLines ⟨[], none⟩ lines

/-- Parse a report and enforce the loader-presence check of main.rs:116-120:
on success, return the list of required libraries and the loader path. -/
def parseReport (lines : List (List Char)) :
    Except ParseErr (List (List Char) × List Char) :=
  match parseLdd lines with
  | .error e => .error e
  | .ok st =>
    match st.loader with
    | none => .error .missingLoader
    | some l => .ok (st.libs, l)

/-- Boolean shape of a line that reaches the loader branch of the parser:
it lacks `" => "`, does not name the vdso, and names `"ld-linux"`
(main.rs:91, 98, 101). -/
def isLoaderLine (l : List Char) : Bool :=
  !containsSub sepArrow l && !containsSub vdsoTok l && containsSub ldTok l

/-- Split a path string at every separator character, keeping empty pieces
(helper for the component view of std::path used below). -/
def splitSlash : List Char → List (List Char)
  | [] => [[]]
  | c :: t =>
    match splitSlash t with
    | [] => [[]]
    | h :: r => if c = '/' then [] :: h :: r else (c :: h) :: r

/-- Normalized components of a path, in the sense of Rust
std::path::Path::components restricted to the paths this program feeds to
the path primitives (in particular, the output of canonicalize, which is
absolute and normalized): empty pieces and "." pieces are dropped. -/
def pathComponents (p : List Char) : List (List Char) :=
  (splitSlash p).filter (fun comp => !comp.isEmpty && comp != ['.'])

/-- Path starts with the root separator. -/
def isAbsPath (p : List Char) : Bool := p.head? == some '/'

/-- Rust Path::parent (main.rs:141) on the normalized paths this program
passes to it: drop the final component; none for a path with no
components (such as the root itself). -/
def parentPath (p : List Char) : Option (List Char) :=
  match pathComponents p with
  | [] => none
  | c :: cs =>
    some ((if isAbsPath p then ['/'] else []) ++
      List.intercalate ['/'] ((c :: cs).dropLast))

/-- Rust Path::strip_prefix with the root as the prefix (main.rs:142):
drop the leading separator of an absolute path; none (an unwrap panic in
the source) on a relative path. -/
def stripRoot (p : List Char) : Option (List Char) :=
  match p with
  | '/' :: rest => some rest
  | _ => none

/-- Rust Path::file_name (main.rs:153): the final normal component of the
path; none when there is no component or the path ends in "..". -/
def fileName (p : List Char) : Option (List Char) :=
  match (pathComponents p).getLast? with
  | none => none
  | some comp => if comp = ("..".toList) then none else some comp

/-- Rust Path::join (main.rs:146, 153) for the separator-terminated-free
paths this program builds: an absolute right operand replaces the left
one, otherwise the two are joined with a single separator. -/
def joinPath (a b : List Char) : List Char :=
  if isAbsPath b then b
  else if a.isEmpty then b
  else if a.getLast? == some '/' then a ++ b
  else a ++ '/' :: b

/-- Fixed destination directory for every resolved library
(main.rs:124: "lib64/x86_64"). -/
def lib64Dir : List Char := "lib64/x86_64".toList

/-- Fixed destination directory for the primary executable
(main.rs:125: "usr/bin"). -/
def usrBinDir : List Char := "usr/bin".toList

/-- Abstract filesystem environment: which OS primitives succeed, and what
canonicalize resolves each path to.  canonicalize returning none models an
io::Error from fs::canonicalize (main.rs:127); isFile models
Path::is_file (main.rs:129); mkdirOk models fs::create_dir_all succeeding
(main.rs:149); copyOk models fs::copy succeeding (main.rs:155). -/
structure FsEnv where
  canonicalize : List Char → Option (List Char)
  isFile : List Char → Bool
  mkdirOk : List Char → Bool
  copyOk : List Char → List Char → Bool

/-- Filesystem side effects performed by the install loop: a (recursive)
directory creation or a file copy. -/
inductive FsOp where
  | mkdirAll (p : List Char)
  | copy (src dst : List Char)
deriving DecidableEq, Repr

/-- Install-stage errors, one per return site of the loop body of
main.rs:123-159: libCanonicalize is Error::LibCanonicalize (main.rs:128),
notAFile is the Error::UnexpectedLddOutput return of main.rs:129-131,
createOutputDirectory and copyFile are the equally named source variants
(main.rs:149-158), and panicked models an unwrap() of None in the source
(main.rs:141, 142, 153). -/
inductive InstallErr where
  | libCanonicalize
  | notAFile
  | panicked
  | createOutputDirectory (dest : List Char)
  | copyFile (src dst : List Char)
deriving DecidableEq, Repr

/-- A placement task, one element of the chained iterator of
main.rs:123-126: the optional custom destination directory and the
reported source path. -/
structure PTask where
  custom : Option (List Char)
  lib : List Char
deriving DecidableEq, Repr

/-- Destination directory choice of main.rs:135-143: the custom relative
directory when there is one, otherwise (loader task) the canonicalized
path's parent with its leading separator stripped. -/
def targetDirOf (t : PTask) (libPath : List Char) : Option (List Char) :=
  match t.custom with
  | some c => some c
  | none => (parentPath libPath).bind stripRoot

/-- Body of the install loop of main.rs:127-158 for one task: canonicalize
the reported path, require a regular file, compute the destination
directory under the chroot, create it, and copy the canonicalized file to
the destination directory joined with the REPORTED path's file name.
Returns the trace of operations performed and the error, if any, that
aborted the task. -/
def installTask (env : FsEnv) (chroot : List Char) (t : PTask) :
    List FsOp × Option InstallErr :=
  match env.canonicalize t.lib with
  | none => ([], some .libCanonicalize)
  | some libPath =>
    if !env.isFile libPath then ([], some .notAFile)
    else
      match targetDirOf t libPath with
      | none => ([], some .panicked)
      | some targetDir =>
        let dest := joinPath chroot targetDir
        if !env.mkdirOk dest then ([], some (.createOutputDirectory dest))
        else
          match fileName t.lib with
          | none => ([FsOp.mkdirAll dest], some .panicked)
          | some fn =>
            let destFile := joinPath dest fn
            if !env.copyOk libPath destFile then
              ([FsOp.mkdirAll dest], some (.copyFile libPath destFile))
            else
              ([FsOp.mkdirAll dest, FsOp.copy libPath destFile], none)

/-- The install loop of main.rs:123-159 over a task list: tasks run in
order, the first error aborts the run, and the trace records every
operation performed up to that point. -/
def installAll (env : FsEnv) (chroot : List Char) :
    List PTask → List FsOp × Option InstallErr
  | [] => ([], none)
  | t :: ts =>
    match installTask env chroot t with
    | (ops₁, some e) => (ops₁, some e)
    | (ops₁, none) =>
      match installAll env chroot ts with
      | (ops₂, e₂) => (ops₁ ++ ops₂, e₂)

/-- The chained task iterator of main.rs:123-126: every parsed library
with custom directory "lib64/x86_64", then the primary executable (the
program's first argument) with custom directory "usr/bin", then the loader
with no custom directory. -/
def placementTasks (libs : List (List Char)) (exe ldr : List Char) :
    List PTask :=
  libs.map (fun x => PTask.mk (some lib64Dir) x)
    ++ [PTask.mk (some usrBinDir) exe] ++ [PTask.mk none ldr]

/-- Top-level error: a parse-stage or install-stage failure. -/
inductive RunErr where
  | parse (e : ParseErr)
  | install (e : InstallErr)
deriving DecidableEq, Repr

/-- The dependency-discovery-and-placement pipeline of main.rs:87-163:
parse the report, then install every placement task; the trace is the list
of filesystem operations performed. -/
def runChrooter (env : FsEnv) (chroot exe : List Char)
    (lines : List (List Char)) : List FsOp × Option RunErr :=
  match parseReport lines with
  | .error e => ([], some (.parse e))
  | .ok (libs, ldr) =>
    match installAll env chroot (placementTasks libs exe ldr) with
    | (ops, e) => (ops, e.map .install)

/-- Number of file copies in a trace. -/
def copyCount (ops : List FsOp) : Nat :=
  (ops.filter (fun op => match op with | .copy _ _ => true | _ => false)).length

/-- Destination directories of the directory-creation operations of a
trace. -/
def mkdirDirs (ops : List FsOp) : List (List Char) :=
  ops.filterMap (fun op => match op with | .mkdirAll p => some p | _ => none)

/-- Destination files of the copy operations of a trace. -/
def copyDsts (ops : List FsOp) : List (List Char) :=
  ops.filterMap (fun op => match op with | .copy _ d => some d | _ => none)

/-- Filesystem environment in which every primitive succeeds and
canonicalization is the identity (every reported path already canonical). -/
def envId : FsEnv :=
  { canonicalize := some
    isFile := fun _ => true
    mkdirOk := fun _ => true
    copyOk := fun _ _ => true }

/-- Filesystem environment in which canonicalizing one specific path (a
missing library) fails and everything else succeeds with identity
canonicalization. -/
def envMissing : FsEnv :=
  { canonicalize := fun p =>
      if p = ("/missing/lib.so").toList then none else some p
    isFile := fun _ => true
    mkdirOk := fun _ => true
    copyOk := fun _ _ => true }

/-- Filesystem environment in which one reported path is a symlink:
canonicalizing it yields a path with a different final component; all
primitives succeed. -/
def envSymlink : FsEnv :=
  { canonicalize := fun p =>
      if p = ("/lib/libfoo.so").toList
      then some (("/lib/libfoo-1.2.so").toList)
      else some p
    isFile := fun _ => true
    mkdirOk := fun _ => true
    copyOk := fun _ _ => true }

theorem list_isPrefixOf_append (l x : List Char) : l.isPrefixOf (l ++ x) = true := by
  rw [List.isPrefixOf_iff_prefix]
  exact List.prefix_append l x

theorem firstMatchIdx_boundary (sep a b : List Char)
    (h : ∀ j < a.length, sep.isPrefixOf ((a ++ (sep ++ b)).drop j) = false) :
    firstMatchIdx sep (a ++ (sep ++ b)) = some a.length := by
  revert h
  induction a with
  | nil =>
    intro _
    simp only [List.nil_append, List.length_nil]
    cases sep with
    | nil =>
      cases b with
      | nil => decide
      | cons x xs => simp [firstMatchIdx, List.isPrefixOf]
    | cons s s' =>
      have hp : (s :: s').isPrefixOf (s :: (s' ++ b)) = true :=
        list_isPrefixOf_append (s :: s') b
      simp [firstMatchIdx, hp]
  | cons c a' ih =>
    intro h
    have h0 : sep.isPrefixOf (c :: (a' ++ (sep ++ b))) = false := by
      have := h 0 (by simp)
      simpa using this
    have ihh := ih (fun j hj => by
      have := h (j + 1) (by simpa using Nat.succ_lt_succ hj)
      simpa using this)
    simp [firstMatchIdx, h0, ihh, List.length_cons]

theorem lastMatchIdx_isPrefixOf (sep : List Char) :
    ∀ (s : List Char) (i : Nat), lastMatchIdx sep s = some i →
      sep.isPrefixOf (s.drop i) = true := by
  intro s
  induction s with
  | nil =>
    intro i h
    by_cases hp : sep.isPrefixOf ([] : List Char) = true
    · simp only [lastMatchIdx, if_pos hp] at h
      cases h
      exact hp
    · simp only [lastMatchIdx, if_neg hp] at h
      cases h
  | cons c t iht =>
    intro i h
    cases hlt : lastMatchIdx sep t with
    | some j =>
      simp only [lastMatchIdx, hlt] at h
      cases h
      simpa using iht j hlt
    | none =>
      by_cases hp : sep.isPrefixOf (c :: t) = true
      · simp only [lastMatchIdx, hlt, if_pos hp] at h
        cases h
        exact hp
      · simp only [lastMatchIdx, hlt, if_neg hp] at h
        cases h

theorem lastMatchIdx_le_length (sep : List Char) :
    ∀ (s : List Char) (i : Nat), lastMatchIdx sep s = some i → i ≤ s.length := by
  intro s
  induction s with
  | nil =>
    intro i h
    by_cases hp : sep.isPrefixOf ([] : List Char) = true
    · simp only [lastMatchIdx, if_pos hp] at h
      cases h
      simp
    · simp only [lastMatchIdx, if_neg hp] at h
      cases h
  | cons c t iht =>
    intro i h
    cases hlt : lastMatchIdx sep t with
    | some j =>
      simp only [lastMatchIdx, hlt] at h
      cases h
      have := iht j hlt
      simp only [List.length_cons]
      omega
    | none =>
      by_cases hp : sep.isPrefixOf (c :: t) = true
      · simp only [lastMatchIdx, hlt, if_pos hp] at h
        cases h
        simp
      · simp only [lastMatchIdx, hlt, if_neg hp] at h
        cases h

theorem lastMatchIdx_boundary (sep c d : List Char)
    (h : ∀ j ≤ (c ++ (sep ++ d)).length, c.length < j →
      sep.isPrefixOf ((c ++ (sep ++ d)).drop j) = false) :
    lastMatchIdx sep (c ++ (sep ++ d)) = some c.length := by
  revert h
  induction c with
  | nil =>
    intro h
    simp only [List.nil_append, List.length_nil] at h ⊢
    cases sep with
    | nil =>
      cases d with
      | nil => decide
      | cons x xs =>
        exfalso
        have := h 1 (by simp) (by simp)
        simp [List.isPrefixOf] at this
    | cons s s' =>
      have hnone : lastMatchIdx (s :: s') (s' ++ d) = none := by
        cases hlt : lastMatchIdx (s :: s') (s' ++ d) with
        | none => rfl
        | some i =>
          exfalso
          have hpre := lastMatchIdx_isPrefixOf _ _ _ hlt
          have hle := lastMatchIdx_le_length _ _ _ hlt
          have hfalse := h (i + 1)
            (by simp only [List.cons_append, List.length_cons]; simp at hle ⊢; omega)
            (by omega)
          rw [List.cons_append, List.drop_succ_cons] at hfalse
          rw [hpre] at hfalse
          exact Bool.true_eq_false.mp hfalse
      have hp : (s :: s').isPrefixOf (s :: (s' ++ d)) = true :=
        list_isPrefixOf_append (s :: s') d
      simp only [List.cons_append, lastMatchIdx, List.append_eq, hnone, hp, if_true]
  | cons x c' ih =>
    intro h
    have ihh := ih (fun j hj1 hj2 => by
      have := h (j + 1)
        (by simp only [List.cons_append, List.length_cons]; simp at hj1 ⊢; omega)
        (by simp only [List.length_cons]; omega)
      simpa using this)
    simp only [List.cons_append, lastMatchIdx, List.append_eq, ihh, List.length_cons]

theorem containsSub_boundary (sep a b : List Char)
    (h : ∀ j < a.length, sep.isPrefixOf ((a ++ (sep ++ b)).drop j) = false) :
    containsSub sep (a ++ (sep ++ b)) = true := by
  simp [containsSub, firstMatchIdx_boundary sep a b h]

theorem afterFirst_boundary (sep a b : List Char)
    (h : ∀ j < a.length, sep.isPrefixOf ((a ++ (sep ++ b)).drop j) = false) :
    afterFirst sep (a ++ (sep ++ b)) = some b := by
  have hf := firstMatchIdx_boundary sep a b h
  simp only [afterFirst, hf, Option.map_some']
  rw [← List.append_assoc]
  rw [show a.length + sep.length = (a ++ sep).length by simp]
  rw [List.drop_left]

theorem beforeLast_boundary (sep c d : List Char)
    (h : ∀ j ≤ (c ++ (sep ++ d)).length, c.length < j →
      sep.isPrefixOf ((c ++ (sep ++ d)).drop j) = false) :
    beforeLast sep (c ++ (sep ++ d)) = some c := by
  have hl := lastMatchIdx_boundary sep c d h
  simp only [beforeLast, hl, Option.map_some']
  rw [List.take_left c (sep ++ d)]

theorem processLine_resolved (st : PState) (a mid d : List Char)
    (h1 : ∀ j < a.length,
      sepArrow.isPrefixOf ((a ++ (sepArrow ++ (mid ++ (sepAddr ++ d)))).drop j) = false)
    (h2 : ∀ j ≤ (mid ++ (sepAddr ++ d)).length, mid.length < j →
      sepAddr.isPrefixOf ((mid ++ (sepAddr ++ d)).drop j) = false) :
    processLine st (a ++ (sepArrow ++ (mid ++ (sepAddr ++ d)))) =
      .ok ⟨st.libs ++ [mid], st.loader⟩ := by
  have hc := containsSub_boundary sepArrow a (mid ++ (sepAddr ++ d)) h1
  have ha := afterFirst_boundary sepArrow a (mid ++ (sepAddr ++ d)) h1
  have hb := beforeLast_boundary sepAddr mid d h2
  cases st
  simp [processLine, hc, ha, hb]

theorem parseLines_append (b : List (List Char)) :
    ∀ (a : List (List Char)) (st : PState),
      parseLines st (a ++ b) =
        match parseLines st a with
        | .ok st' => parseLines st' b
        | .error e => .error e := by
  intro a
  induction a with
  | nil => intro st; simp [parseLines]
  | cons l ls ih =>
    intro st
    simp only [List.cons_append, parseLines]
    cases hp : processLine st l with
    | error e => rfl
    | ok st' => exact ih st'

theorem processLine_loader_eq (st st' : PState) (l : List Char)
    (hl : isLoaderLine l = false) (hp : processLine st l = .ok st') :
    st'.loader = st.loader := by
  cases hA : containsSub sepArrow l with
  | true =>
    simp only [processLine, hA, if_true] at hp
    cases hm : (afterFirst sepArrow l).bind (fun x => beforeLast sepAddr x) with
    | none => rw [hm] at hp; cases hp
    | some lib =>
      rw [hm] at hp
      cases hp
      rfl
  | false =>
    cases hB : containsSub vdsoTok l with
    | true =>
      simp only [processLine, hA, hB] at hp
      simp only [Bool.false_eq_true, if_false, if_true] at hp
      cases hp
      rfl
    | false =>
      have hC : containsSub ldTok l = false := by
        simp [isLoaderLine, hA, hB] at hl
        exact hl
      simp only [processLine, hA, hB, hC, Bool.false_eq_true, if_false] at hp
      cases hp
      rfl

theorem parseLines_loader_eq :
    ∀ (ls : List (List Char)) (st st' : PState),
      (∀ l ∈ ls, isLoaderLine l = false) → parseLines st ls = .ok st' →
      st'.loader = st.loader := by
  intro ls
  induction ls with
  | nil =>
    intro st st' _ hp
    simp only [parseLines] at hp
    cases hp
    rfl
  | cons l ls ih =>
    intro st st' hall hp
    simp only [parseLines] at hp
    cases hpl : processLine st l with
    | error e => rw [hpl] at hp; cases hp
    | ok st1 =>
      rw [hpl] at hp
      have h1 := processLine_loader_eq st st1 l (hall l (by simp)) hpl
      have h2 := ih st1 st' (fun x hx => hall x (by simp [hx])) hp
      rw [h2, h1]

theorem installTask_ops_of_success (env : FsEnv) (chroot : List Char) (t : PTask)
    (h : (installTask env chroot t).2 = none) :
    ∃ cn td fn, env.canonicalize t.lib = some cn ∧ env.isFile cn = true ∧
      targetDirOf t cn = some td ∧ fileName t.lib = some fn ∧
      installTask env chroot t =
        ([FsOp.mkdirAll (joinPath chroot td),
          FsOp.copy cn (joinPath (joinPath chroot td) fn)], none) := by
  cases hc : env.canonicalize t.lib with
  | none => simp [installTask, hc] at h
  | some cn =>
    cases hf : env.isFile cn with
    | false => simp [installTask, hc, hf] at h
    | true =>
      cases htd : targetDirOf t cn with
      | none => simp [installTask, hc, hf, htd] at h
      | some td =>
        cases hm : env.mkdirOk (joinPath chroot td) with
        | false => simp [installTask, hc, hf, htd, hm] at h
        | true =>
          cases hfn : fileName t.lib with
          | none => simp [installTask, hc, hf, htd, hm, hfn] at h
          | some fn =>
            cases hcp : env.copyOk cn (joinPath (joinPath chroot td) fn) with
            | false => simp [installTask, hc, hf, htd, hm, hfn, hcp] at h
            | true =>
              refine ⟨cn, td, fn, rfl, hf, htd, rfl, ?_⟩
              simp [installTask, hc, hf, htd, hm, hfn, hcp]

theorem installAll_success (env : FsEnv) (chroot : List Char) :
    ∀ (ts : List PTask) (ops : List FsOp),
      installAll env chroot ts = (ops, none) →
      (∀ t ∈ ts, (installTask env chroot t).2 = none) ∧
        ops = ts.flatMap (fun t => (installTask env chroot t).1) := by
  intro ts
  induction ts with
  | nil =>
    intro ops h
    simp only [installAll, Prod.mk.injEq] at h
    exact ⟨by simp, by simp [← h.1]⟩
  | cons t ts ih =>
    intro ops h
    cases hT : installTask env chroot t with
    | mk ops₁ e₁ =>
      cases e₁ with
      | some e => simp [installAll, hT] at h
      | none =>
        cases hR : installAll env chroot ts with
        | mk ops₂ e₂ =>
          simp only [installAll, hT, hR, Prod.mk.injEq] at h
          obtain ⟨hops, he₂⟩ := h
          obtain ⟨hall, hrep⟩ := ih ops₂ (by rw [hR, he₂])
          refine ⟨?_, ?_⟩
          · intro x hx
            rcases List.mem_cons.mp hx with rfl | hx'
            · simp [hT]
            · exact hall x hx'
          · simp [← hops, hrep, List.flatMap_cons, hT]

theorem installAll_append (env : FsEnv) (chroot : List Char) :
    ∀ a b : List PTask,
      installAll env chroot (a ++ b) =
        match installAll env chroot a with
        | (ops, some e) => (ops, some e)
        | (ops, none) =>
          match installAll env chroot b with
          | (ops₂, e₂) => (ops ++ ops₂, e₂) := by
  intro a
  induction a with
  | nil =>
    intro b
    simp [installAll]
  | cons t a' ih =>
    intro b
    cases hT : installTask env chroot t with
    | mk o1 e1 =>
      cases e1 with
      | some e => simp [installAll, hT]
      | none =>
        simp only [List.cons_append, installAll, List.append_eq, hT]
        rw [ih b]
        cases hA : installAll env chroot a' with
        | mk oa ea =>
          cases ea with
          | some e => rfl
          | none =>
            cases hB : installAll env chroot b with
            | mk ob eb => simp [List.append_assoc]

theorem copyCount_append (a b : List FsOp) :
    copyCount (a ++ b) = copyCount a + copyCount b := by
  simp [copyCount]

theorem mkdirDirs_append (a b : List FsOp) :
    mkdirDirs (a ++ b) = mkdirDirs a ++ mkdirDirs b := by
  simp [mkdirDirs]

theorem copyDsts_append (a b : List FsOp) :
    copyDsts (a ++ b) = copyDsts a ++ copyDsts b := by
  simp [copyDsts]

theorem installAll_counts (env : FsEnv) (chroot : List Char) :
    ∀ ts : List PTask, (∀ t ∈ ts, (installTask env chroot t).2 = none) →
      copyCount (ts.flatMap (fun t => (installTask env chroot t).1)) = ts.length ∧
      (mkdirDirs (ts.flatMap (fun t => (installTask env chroot t).1))).length
        = ts.length := by
  intro ts
  induction ts with
  | nil => intro _; simp [copyCount, mkdirDirs]
  | cons t ts ih =>
    intro hall
    obtain ⟨cn, td, fn, _, _, _, _, hEq⟩ :=
      installTask_ops_of_success env chroot t (hall t (by simp))
    have hops : (installTask env chroot t).1 =
        [FsOp.mkdirAll (joinPath chroot td),
         FsOp.copy cn (joinPath (joinPath chroot td) fn)] := by rw [hEq]
    obtain ⟨ih1, ih2⟩ := ih (fun x hx => hall x (by simp [hx]))
    rw [List.flatMap_cons, copyCount_append, mkdirDirs_append, hops]
    constructor
    · rw [ih1]
      simp [copyCount]
      omega
    · rw [List.length_append, ih2]
      simp [mkdirDirs]
      omega

theorem installAll_copyDsts (env : FsEnv) (chroot : List Char) :
    ∀ ts : List PTask, (∀ t ∈ ts, (installTask env chroot t).2 = none) →
      copyDsts (ts.flatMap (fun t => (installTask env chroot t).1)) =
        ts.map (fun t =>
          joinPath
            (joinPath chroot
              (((env.canonicalize t.lib).bind (targetDirOf t)).getD []))
            ((fileName t.lib).getD [])) := by
  intro ts
  induction ts with
  | nil => intro _; simp [copyDsts]
  | cons t ts ih =>
    intro hall
    obtain ⟨cn, td, fn, hc, _, htd, hfn, hEq⟩ :=
      installTask_ops_of_success env chroot t (hall t (by simp))
    have hops : (installTask env chroot t).1 =
        [FsOp.mkdirAll (joinPath chroot td),
         FsOp.copy cn (joinPath (joinPath chroot td) fn)] := by rw [hEq]
    rw [List.flatMap_cons, copyDsts_append, hops,
      ih (fun x hx => hall x (by simp [hx])), List.map_cons]
    simp [copyDsts, hc, htd, hfn]

theorem runChrooter_success_installAll (env : FsEnv) (chroot exe : List Char)
    (lines libs : List (List Char)) (ldr : List Char) (ops : List FsOp)
    (hp : parseReport lines = .ok (libs, ldr))
    (hrun : runChrooter env chroot exe lines = (ops, none)) :
    installAll env chroot (placementTasks libs exe ldr) = (ops, none) := by
  simp only [runChrooter, hp] at hrun
  cases hI : installAll env chroot (placementTasks libs exe ldr) with
  | mk ops' e' =>
    rw [hI] at hrun
    simp only [Prod.mk.injEq, Option.map_eq_none'] at hrun
    rw [hrun.1, hrun.2]

/-- Claim C1: for every well-formed resolved-library line of the shape
"  name => /path/to/name (0xADDR)" (the hypotheses state well-formedness:
the first occurrence of " => " is the separator after the name, and the
last occurrence of " (0x" is the load-address annotation after the path),
the parser extracts exactly the path string as the RequiredLibrary entry
for that line, appending it to the state's library list and leaving the
loader untouched. -/
theorem spec_c1 (st : PState) (ws name path addr : List Char)
    (h1 : ∀ j < (ws ++ name).length,
      sepArrow.isPrefixOf
        (((ws ++ name) ++ (sepArrow ++ (path ++ (sepAddr ++ (addr ++ [')']))))).drop j)
        = false)
    (h2 : ∀ j ≤ (path ++ (sepAddr ++ (addr ++ [')']))).length, path.length < j →
      sepAddr.isPrefixOf ((path ++ (sepAddr ++ (addr ++ [')']))).drop j) = false) :
    processLine st
        ((ws ++ name) ++ (sepArrow ++ (path ++ (sepAddr ++ (addr ++ [')']))))) =
      .ok ⟨st.libs ++ [path], st.loader⟩ :=
  processLine_resolved st (ws ++ name) path (addr ++ [')']) h1 h2

/-- Witness for C1 at the concrete line
"  libm.so.6 => /lib64/libm.so.6 (0x00007f257b923000)": the decomposition
used by the theorem spells exactly that line, and the parser records
exactly "/lib64/libm.so.6". -/
theorem spec_c1_witness :
    (("  ").toList ++ ("libm.so.6").toList) ++
        (sepArrow ++ (("/lib64/libm.so.6").toList ++
          (sepAddr ++ (("00007f257b923000").toList ++ [')'])))) =
      ("  libm.so.6 => /lib64/libm.so.6 (0x00007f257b923000)").toList
    ∧ processLine ⟨[], none⟩
        ((("  ").toList ++ ("libm.so.6").toList) ++
          (sepArrow ++ (("/lib64/libm.so.6").toList ++
            (sepAddr ++ (("00007f257b923000").toList ++ [')']))))) =
        .ok ⟨[("/lib64/libm.so.6").toList], none⟩ :=
  ⟨by decide,
    spec_c1 ⟨[], none⟩ (("  ").toList) (("libm.so.6").toList)
      (("/lib64/libm.so.6").toList) (("00007f257b923000").toList)
      (by decide) (by decide)⟩

/-- Claim C5: the malformed line "libfoo.so => (0x00007f)", which contains
the separator " => " but no " (0x" after it (the space before "(0x" was
consumed by the separator), makes the parser fail with the
unexpected-format error (Error::UnexpectedLddOutput in the source), both
at the single-line level and for a report consisting of that line. -/
theorem spec_c5 :
    processLine ⟨[], none⟩ (("libfoo.so => (0x00007f)").toList) =
      .error .unexpectedFormat
    ∧ parseLdd [("libfoo.so => (0x00007f)").toList] =
      .error .unexpectedFormat :=
  ⟨rfl, rfl⟩

/-- Counterexample to claim C6 as stated: on the line
"libfoo.so =>  /lib/x.so (0x1)" (two spaces after the separator) the
parser records " /lib/x.so" with its leading space, which differs from
the whitespace-trimmed substring; so the recorded RequiredLibrary is NOT
trimmed. -/
theorem spec_c6_cex :
    parseLdd [("libfoo.so =>  /lib/x.so (0x1)").toList] =
      .ok ⟨[(" /lib/x.so").toList], none⟩
    ∧ trimChars ((" /lib/x.so").toList) ≠ (" /lib/x.so").toList :=
  ⟨rfl, by decide⟩

/-- Claim C6 as amended: for every line containing " => " that parses
successfully, the RequiredLibrary recorded is the VERBATIM substring
between the first " => " separator and the last " (0x" annotation, with
no whitespace trimming applied (trimming is applied only to the loader
path in the loader branch). -/
theorem spec_c6 (st : PState) (a mid d : List Char)
    (h1 : ∀ j < a.length,
      sepArrow.isPrefixOf ((a ++ (sepArrow ++ (mid ++ (sepAddr ++ d)))).drop j)
        = false)
    (h2 : ∀ j ≤ (mid ++ (sepAddr ++ d)).length, mid.length < j →
      sepAddr.isPrefixOf ((mid ++ (sepAddr ++ d)).drop j) = false) :
    processLine st (a ++ (sepArrow ++ (mid ++ (sepAddr ++ d)))) =
      .ok ⟨st.libs ++ [mid], st.loader⟩ :=
  processLine_resolved st a mid d h1 h2

/-- Witness for the amended C6 at the line "libfoo.so =>  /lib/x.so (0x1)":
the recorded entry is the verbatim substring " /lib/x.so", leading space
included. -/
theorem spec_c6_witness :
    processLine ⟨[], none⟩
        (("libfoo.so").toList ++
          (sepArrow ++ ((" /lib/x.so").toList ++ (sepAddr ++ ("1)").toList)))) =
      .ok ⟨[(" /lib/x.so").toList], none⟩ :=
  spec_c6 ⟨[], none⟩ (("libfoo.so").toList) ((" /lib/x.so").toList)
    (("1)").toList) (by decide) (by decide)

/-- Claim C9: line classification tests the resolved-mapping shape first.
Any line containing " => " is handled by the resolved-library branch,
whatever else it contains: the only possible outcomes are the
unexpected-format error or a state with one library appended and the
loader component unchanged; in particular the duplicate-loader check and
the loader/vdso branches are never reached for such a line. -/
theorem spec_c9 (st : PState) (line : List Char)
    (h : containsSub sepArrow line = true) :
    processLine st line = .error .unexpectedFormat ∨
      ∃ lib, processLine st line = .ok ⟨st.libs ++ [lib], st.loader⟩ := by
  cases hm : (afterFirst sepArrow line).bind (fun x => beforeLast sepAddr x) with
  | none =>
    left
    simp [processLine, h, hm]
  | some lib =>
    right
    refine ⟨lib, ?_⟩
    cases st
    simp [processLine, h, hm]

/-- Witness for C9 at the line
"  ld-linux-x86-64.so.2 => /lib64/ld-linux-x86-64.so.2 (0x1)", which
names the dynamic loader AND contains " => ", in a state whose loader is
already set: the line is handled by the library branch (no
duplicate-loader error, loader unchanged). -/
theorem spec_c9_witness :
    containsSub ldTok
        (("  ld-linux-x86-64.so.2 => /lib64/ld-linux-x86-64.so.2 (0x1)").toList)
      = true
    ∧ (processLine ⟨[], some (("/x").toList)⟩
          (("  ld-linux-x86-64.so.2 => /lib64/ld-linux-x86-64.so.2 (0x1)").toList)
        = .error .unexpectedFormat ∨
      ∃ lib, processLine ⟨[], some (("/x").toList)⟩
          (("  ld-linux-x86-64.so.2 => /lib64/ld-linux-x86-64.so.2 (0x1)").toList)
        = .ok ⟨[lib], some (("/x").toList)⟩) :=
  ⟨by decide,
    spec_c9 ⟨[], some (("/x").toList)⟩
      (("  ld-linux-x86-64.so.2 => /lib64/ld-linux-x86-64.so.2 (0x1)").toList)
      (by decide)⟩

/-- Claim C3: for every dependency report in which no line is recognised
as a loader line, the parser processes all lines (hypothesis hok) and then
fails with the missing-loader error of main.rs:116-120, and the pipeline
performs no install step (empty operation trace) whatever the filesystem
environment. -/
theorem spec_c3 (env : FsEnv) (chroot exe : List Char)
    (lines : List (List Char)) (st : PState)
    (hok : parseLdd lines = .ok st)
    (hnl : ∀ l ∈ lines, isLoaderLine l = false) :
    parseReport lines = .error .missingLoader ∧
      runChrooter env chroot exe lines = ([], some (.parse .missingLoader)) := by
  have hloader : st.loader = none := by
    have h := parseLines_loader_eq lines ⟨[], none⟩ st hnl hok
    simpa using h
  have hrep : parseReport lines = .error .missingLoader := by
    simp [parseReport, hok, hloader]
  exact ⟨hrep, by simp [runChrooter, hrep]⟩

/-- Witness for C3: a report consisting only of the virtual-object line
"        linux-vdso.so.1 (0x00007ffd)" parses to a loader-less state and
the pipeline fails with the missing-loader error, performing no
filesystem operation. -/
theorem spec_c3_witness :
    parseLdd [("        linux-vdso.so.1 (0x00007ffd)").toList] =
      .ok ⟨[], none⟩
    ∧ (parseReport [("        linux-vdso.so.1 (0x00007ffd)").toList] =
        .error .missingLoader
      ∧ runChrooter envId (("/chroot").toList) (("/usr/bin/qemu").toList)
          [("        linux-vdso.so.1 (0x00007ffd)").toList] =
        ([], some (.parse .missingLoader))) :=
  ⟨rfl,
    spec_c3 envId (("/chroot").toList) (("/usr/bin/qemu").toList)
      [("        linux-vdso.so.1 (0x00007ffd)").toList] ⟨[], none⟩ rfl
      (by decide)⟩

/-- Claim C4: when a prefix of the report has parsed successfully and has
already captured a loader, any further loader-shaped line (no " => ", not
the vdso, names "ld-linux") makes parsing fail with the duplicate-loader
error of main.rs:104-107 immediately — whatever lines follow it; moreover
a loader line necessarily occurs in the prefix. -/
theorem spec_c4 (pre post : List (List Char)) (l2 : List Char) (st : PState)
    (hpre : parseLdd pre = .ok st)
    (hld : st.loader.isSome = true)
    (h1 : containsSub sepArrow l2 = false)
    (h2 : containsSub vdsoTok l2 = false)
    (h3 : containsSub ldTok l2 = true) :
    (∃ l1 ∈ pre, isLoaderLine l1 = true) ∧
      parseLdd (pre ++ l2 :: post) = .error .duplicateLoader ∧
      parseReport (pre ++ l2 :: post) = .error .duplicateLoader := by
  have hdup : processLine st l2 = .error .duplicateLoader := by
    simp [processLine, h1, h2, h3, hld]
  have hparse : parseLdd (pre ++ l2 :: post) = .error .duplicateLoader := by
    unfold parseLdd
    rw [parseLines_append]
    rw [show parseLines ⟨[], none⟩ pre = .ok st from hpre]
    simp [parseLines, hdup]
  refine ⟨?_, hparse, by simp [parseReport, hparse]⟩
  by_contra hno
  push_neg at hno
  have hall : ∀ l ∈ pre, isLoaderLine l = false := by
    intro l hl
    cases hEq : isLoaderLine l with
    | false => rfl
    | true => exact absurd hEq (hno l hl)
  have hnone := parseLines_loader_eq pre ⟨[], none⟩ st hall hpre
  rw [hnone] at hld
  simp at hld

/-- Witness for C4: a report whose first line is the loader line
"        /lib64/ld-linux-x86-64.so.2 (0x7f)" and whose second line is the
same loader-shaped line fails with the duplicate-loader error. -/
theorem spec_c4_witness :
    parseLdd [("        /lib64/ld-linux-x86-64.so.2 (0x7f)").toList] =
      .ok ⟨[], some (("/lib64/ld-linux-x86-64.so.2").toList)⟩
    ∧ ((∃ l1 ∈ [("        /lib64/ld-linux-x86-64.so.2 (0x7f)").toList],
          isLoaderLine l1 = true) ∧
        parseLdd ([("        /lib64/ld-linux-x86-64.so.2 (0x7f)").toList] ++
            ("        /lib64/ld-linux-x86-64.so.2 (0x7f)").toList :: []) =
          .error .duplicateLoader ∧
        parseReport ([("        /lib64/ld-linux-x86-64.so.2 (0x7f)").toList] ++
            ("        /lib64/ld-linux-x86-64.so.2 (0x7f)").toList :: []) =
          .error .duplicateLoader) :=
  ⟨rfl,
    spec_c4 [("        /lib64/ld-linux-x86-64.so.2 (0x7f)").toList] []
      (("        /lib64/ld-linux-x86-64.so.2 (0x7f)").toList)
      ⟨[], some (("/lib64/ld-linux-x86-64.so.2").toList)⟩
      rfl rfl (by decide) (by decide) (by decide)⟩

/-- Claim C7: for every report that parses to N distinct resolved
libraries plus a loader, and every run in which the whole install stage
succeeds, the trace contains exactly N+2 file-copy operations (the N
libraries, the primary executable, and the loader) and at most N+2
distinct destination directories are created. -/
theorem spec_c7 (env : FsEnv) (chroot exe : List Char)
    (lines libs : List (List Char)) (ldr : List Char) (ops : List FsOp)
    (hp : parseReport lines = .ok (libs, ldr))
    (_hnd : libs.Nodup)
    (hrun : runChrooter env chroot exe lines = (ops, none)) :
    copyCount ops = libs.length + 2 ∧
      (mkdirDirs ops).dedup.length ≤ libs.length + 2 := by
  have hinst := runChrooter_success_installAll env chroot exe lines libs ldr ops
    hp hrun
  obtain ⟨hall, hrep⟩ := installAll_success env chroot _ ops hinst
  obtain ⟨h1, h2⟩ := installAll_counts env chroot _ hall
  have hlen : (placementTasks libs exe ldr).length = libs.length + 2 := by
    simp [placementTasks]
  constructor
  · rw [hrep, h1, hlen]
  · rw [hrep]
    calc (mkdirDirs ((placementTasks libs exe ldr).flatMap
          (fun t => (installTask env chroot t).1))).dedup.length
        ≤ (mkdirDirs ((placementTasks libs exe ldr).flatMap
          (fun t => (installTask env chroot t).1))).length :=
          (List.dedup_sublist _).length_le
      _ = (placementTasks libs exe ldr).length := h2
      _ = libs.length + 2 := hlen

/-- Witness for C7: a report with one library line and one loader line,
run under the all-succeeding identity environment, yields exactly 3 copy
operations and at most 3 distinct created directories. -/
theorem spec_c7_witness :
    parseReport
        [("        libm.so.6 => /lib64/libm.so.6 (0x00007f)").toList,
         ("        /lib64/ld-linux-x86-64.so.2 (0x00007f)").toList] =
      .ok ([("/lib64/libm.so.6").toList], ("/lib64/ld-linux-x86-64.so.2").toList)
    ∧ (copyCount
          [FsOp.mkdirAll (("/chroot/lib64/x86_64").toList),
           FsOp.copy (("/lib64/libm.so.6").toList)
             (("/chroot/lib64/x86_64/libm.so.6").toList),
           FsOp.mkdirAll (("/chroot/usr/bin").toList),
           FsOp.copy (("/usr/bin/qemu-x86_64").toList)
             (("/chroot/usr/bin/qemu-x86_64").toList),
           FsOp.mkdirAll (("/chroot/lib64").toList),
           FsOp.copy (("/lib64/ld-linux-x86-64.so.2").toList)
             (("/chroot/lib64/ld-linux-x86-64.so.2").toList)] =
        [("/lib64/libm.so.6").toList].length + 2
      ∧ (mkdirDirs
          [FsOp.mkdirAll (("/chroot/lib64/x86_64").toList),
           FsOp.copy (("/lib64/libm.so.6").toList)
             (("/chroot/lib64/x86_64/libm.so.6").toList),
           FsOp.mkdirAll (("/chroot/usr/bin").toList),
           FsOp.copy (("/usr/bin/qemu-x86_64").toList)
             (("/chroot/usr/bin/qemu-x86_64").toList),
           FsOp.mkdirAll (("/chroot/lib64").toList),
           FsOp.copy (("/lib64/ld-linux-x86-64.so.2").toList)
             (("/chroot/lib64/ld-linux-x86-64.so.2").toList)]).dedup.length ≤
        [("/lib64/libm.so.6").toList].length + 2) :=
  ⟨rfl,
    spec_c7 envId (("/chroot").toList) (("/usr/bin/qemu-x86_64").toList)
      [("        libm.so.6 => /lib64/libm.so.6 (0x00007f)").toList,
       ("        /lib64/ld-linux-x86-64.so.2 (0x00007f)").toList]
      [("/lib64/libm.so.6").toList] (("/lib64/ld-linux-x86-64.so.2").toList)
      [FsOp.mkdirAll (("/chroot/lib64/x86_64").toList),
       FsOp.copy (("/lib64/libm.so.6").toList)
         (("/chroot/lib64/x86_64/libm.so.6").toList),
       FsOp.mkdirAll (("/chroot/usr/bin").toList),
       FsOp.copy (("/usr/bin/qemu-x86_64").toList)
         (("/chroot/usr/bin/qemu-x86_64").toList),
       FsOp.mkdirAll (("/chroot/lib64").toList),
       FsOp.copy (("/lib64/ld-linux-x86-64.so.2").toList)
         (("/chroot/lib64/ld-linux-x86-64.so.2").toList)]
      rfl (by decide) rfl⟩

/-- Claim C8: if the tasks before task t all succeed and canonicalizing
t's reported source path fails, the install stage aborts with the
canonicalization error (Error::LibCanonicalize, main.rs:127-128) before
any directory creation or copy for t — the trace is exactly the
operations of the earlier tasks, which remain in the target tree — and no
later task runs. -/
theorem spec_c8 (env : FsEnv) (chroot : List Char) (pre post : List PTask)
    (t : PTask) (ops : List FsOp)
    (hpre : installAll env chroot pre = (ops, none))
    (hc : env.canonicalize t.lib = none) :
    installAll env chroot (pre ++ t :: post) = (ops, some .libCanonicalize) := by
  rw [installAll_append, hpre]
  have ht : installTask env chroot t = ([], some InstallErr.libCanonicalize) := by
    simp [installTask, hc]
  simp [installAll, ht]

/-- Witness for C8: under an environment where "/missing/lib.so" cannot be
canonicalized, a library task for it aborts the run with the
canonicalization error right after the preceding task's two operations,
and the pending loader task is never reached. -/
theorem spec_c8_witness :
    installAll envMissing (("/chroot").toList)
        [PTask.mk (some lib64Dir) (("/lib64/libm.so.6").toList)] =
      ([FsOp.mkdirAll (("/chroot/lib64/x86_64").toList),
        FsOp.copy (("/lib64/libm.so.6").toList)
          (("/chroot/lib64/x86_64/libm.so.6").toList)], none)
    ∧ installAll envMissing (("/chroot").toList)
        ([PTask.mk (some lib64Dir) (("/lib64/libm.so.6").toList)] ++
          PTask.mk (some lib64Dir) (("/missing/lib.so").toList) ::
            [PTask.mk none (("/lib64/ld-linux-x86-64.so.2").toList)]) =
      ([FsOp.mkdirAll (("/chroot/lib64/x86_64").toList),
        FsOp.copy (("/lib64/libm.so.6").toList)
          (("/chroot/lib64/x86_64/libm.so.6").toList)],
        some .libCanonicalize) :=
  ⟨rfl,
    spec_c8 envMissing (("/chroot").toList)
      [PTask.mk (some lib64Dir) (("/lib64/libm.so.6").toList)]
      [PTask.mk none (("/lib64/ld-linux-x86-64.so.2").toList)]
      (PTask.mk (some lib64Dir) (("/missing/lib.so").toList))
      [FsOp.mkdirAll (("/chroot/lib64/x86_64").toList),
       FsOp.copy (("/lib64/libm.so.6").toList)
         (("/chroot/lib64/x86_64/libm.so.6").toList)]
      rfl rfl⟩

/-- Claim C10: for every placement task the install loop completes
successfully, the copy's destination file name is the final component of
the REPORTED (pre-canonicalization) source path, while the copied
contents come from the canonicalized path: the trace is exactly one
directory creation followed by one copy whose source is the
canonicalized path and whose destination joins the reported path's file
name. -/
theorem spec_c10 (env : FsEnv) (chroot : List Char) (t : PTask)
    (h : (installTask env chroot t).2 = none) :
    ∃ cn fn td, env.canonicalize t.lib = some cn ∧ fileName t.lib = some fn ∧
      targetDirOf t cn = some td ∧
      installTask env chroot t =
        ([FsOp.mkdirAll (joinPath chroot td),
          FsOp.copy cn (joinPath (joinPath chroot td) fn)], none) := by
  obtain ⟨cn, td, fn, hc, _, htd, hfn, hEq⟩ :=
    installTask_ops_of_success env chroot t h
  exact ⟨cn, fn, td, hc, hfn, htd, hEq⟩

/-- Witness for C10 under an environment where the reported path
"/lib/libfoo.so" is a symlink canonicalizing to "/lib/libfoo-1.2.so": the
destination keeps the symlink's name "libfoo.so" while the copy source is
the canonical target. -/
theorem spec_c10_witness :
    (installTask envSymlink (("/chroot").toList)
        (PTask.mk (some lib64Dir) (("/lib/libfoo.so").toList))).2 = none
    ∧ ∃ cn fn td,
        envSymlink.canonicalize (("/lib/libfoo.so").toList) = some cn ∧
        fileName (("/lib/libfoo.so").toList) = some fn ∧
        targetDirOf (PTask.mk (some lib64Dir) (("/lib/libfoo.so").toList)) cn
          = some td ∧
        installTask envSymlink (("/chroot").toList)
            (PTask.mk (some lib64Dir) (("/lib/libfoo.so").toList)) =
          ([FsOp.mkdirAll (joinPath (("/chroot").toList) td),
            FsOp.copy cn (joinPath (joinPath (("/chroot").toList) td) fn)],
            none) :=
  ⟨rfl,
    spec_c10 envSymlink (("/chroot").toList)
      (PTask.mk (some lib64Dir) (("/lib/libfoo.so").toList)) rfl⟩

/-- Counterexample to claim C2's "the loader is never placed under
lib64/x86_64": a successful run on a report whose loader line names
"/lib64/x86_64/ld-linux-x86-64.so.2" (a loader whose own canonical parent
is /lib64/x86_64) copies the loader exactly into the chroot's
lib64/x86_64 directory — the same directory the library policy uses. -/
theorem spec_c2_cex :
    (runChrooter envId (("/chroot").toList) (("/usr/bin/qemu-x86_64").toList)
        [("\t/lib64/x86_64/ld-linux-x86-64.so.2 (0x00007ffd)").toList]).2 = none
    ∧ FsOp.copy (("/lib64/x86_64/ld-linux-x86-64.so.2").toList)
        (("/chroot/lib64/x86_64/ld-linux-x86-64.so.2").toList) ∈
      (runChrooter envId (("/chroot").toList) (("/usr/bin/qemu-x86_64").toList)
        [("\t/lib64/x86_64/ld-linux-x86-64.so.2 (0x00007ffd)").toList]).1
    ∧ joinPath (joinPath (("/chroot").toList) lib64Dir)
        (("ld-linux-x86-64.so.2").toList) =
      ("/chroot/lib64/x86_64/ld-linux-x86-64.so.2").toList :=
  ⟨rfl, by decide, by decide⟩

/-- Claim C2 as amended: on every successful run, the copy destinations
are exactly: chroot/lib64/x86_64/<libname> for each resolved library in
order, then chroot/usr/bin/<execname> for the primary executable, then
chroot/<canonical-loader-parent-without-leading-slash>/<loadername> for
the loader.  (The original claim's extra assertion "the loader is never
placed under lib64/x86_64" fails when the loader's own canonical parent
is /lib64/x86_64; the loader's destination follows its canonical parent,
nothing else.) -/
theorem spec_c2 (env : FsEnv) (chroot exe : List Char)
    (lines libs : List (List Char)) (ldr cn rel : List Char) (ops : List FsOp)
    (hp : parseReport lines = .ok (libs, ldr))
    (hcn : env.canonicalize ldr = some cn)
    (hrel : (parentPath cn).bind stripRoot = some rel)
    (hrun : runChrooter env chroot exe lines = (ops, none)) :
    copyDsts ops =
      libs.map (fun l =>
          joinPath (joinPath chroot lib64Dir) ((fileName l).getD []))
        ++ [joinPath (joinPath chroot usrBinDir) ((fileName exe).getD [])]
        ++ [joinPath (joinPath chroot rel) ((fileName ldr).getD [])] := by
  have hinst := runChrooter_success_installAll env chroot exe lines libs ldr ops
    hp hrun
  obtain ⟨hall, hrep⟩ := installAll_success env chroot _ ops hinst
  rw [hrep, installAll_copyDsts env chroot _ hall]
  simp only [placementTasks, List.map_append]
  congr 1
  · congr 1
    · rw [List.map_map]
      apply List.map_congr_left
      intro l hl
      have hmem : PTask.mk (some lib64Dir) l ∈ placementTasks libs exe ldr := by
        unfold placementTasks
        refine List.mem_append.mpr (Or.inl ?_)
        refine List.mem_append.mpr (Or.inl ?_)
        exact List.mem_map.mpr ⟨l, hl, rfl⟩
      obtain ⟨cn0, td0, fn0, hc0, _, htd0, hfn0, _⟩ :=
        installTask_ops_of_success env chroot _ (hall _ hmem)
      have hc0' : env.canonicalize l = some cn0 := hc0
      simp [Function.comp, hc0', targetDirOf]
    · have hmem : PTask.mk (some usrBinDir) exe ∈ placementTasks libs exe ldr := by
        unfold placementTasks
        refine List.mem_append.mpr (Or.inl ?_)
        exact List.mem_append.mpr (Or.inr (by simp))
      obtain ⟨cn0, td0, fn0, hc0, _, htd0, hfn0, _⟩ :=
        installTask_ops_of_success env chroot _ (hall _ hmem)
      have hc0' : env.canonicalize exe = some cn0 := hc0
      simp [hc0', targetDirOf]
  · simp [hcn, targetDirOf, hrel]

/-- Witness for the amended C2: the two-line report (libm plus the usual
loader at /lib64/ld-linux-x86-64.so.2) under the identity environment
copies into chroot/lib64/x86_64/libm.so.6, chroot/usr/bin/qemu-x86_64 and
chroot/lib64/ld-linux-x86-64.so.2 — the loader mirrors its own canonical
parent "lib64", not the library directory. -/
theorem spec_c2_witness :
    (parentPath (("/lib64/ld-linux-x86-64.so.2").toList)).bind stripRoot =
      some (("lib64").toList)
    ∧ copyDsts
        [FsOp.mkdirAll (("/chroot/lib64/x86_64").toList),
         FsOp.copy (("/lib64/libm.so.6").toList)
           (("/chroot/lib64/x86_64/libm.so.6").toList),
         FsOp.mkdirAll (("/chroot/usr/bin").toList),
         FsOp.copy (("/usr/bin/qemu-x86_64").toList)
           (("/chroot/usr/bin/qemu-x86_64").toList),
         FsOp.mkdirAll (("/chroot/lib64").toList),
         FsOp.copy (("/lib64/ld-linux-x86-64.so.2").toList)
           (("/chroot/lib64/ld-linux-x86-64.so.2").toList)] =
      [("/lib64/libm.so.6").toList].map (fun l =>
          joinPath (joinPath (("/chroot").toList) lib64Dir)
            ((fileName l).getD []))
        ++ [joinPath (joinPath (("/chroot").toList) usrBinDir)
              ((fileName (("/usr/bin/qemu-x86_64").toList)).getD [])]
        ++ [joinPath (joinPath (("/chroot").toList) (("lib64").toList))
              ((fileName (("/lib64/ld-linux-x86-64.so.2").toList)).getD [])] :=
  ⟨rfl,
    spec_c2 envId (("/chroot").toList) (("/usr/bin/qemu-x86_64").toList)
      [("        libm.so.6 => /lib64/libm.so.6 (0x00007f)").toList,
       ("        /lib64/ld-linux-x86-64.so.2 (0x00007f)").toList]
      [("/lib64/libm.so.6").toList] (("/lib64/ld-linux-x86-64.so.2").toList)
      (("/lib64/ld-linux-x86-64.so.2").toList) (("lib64").toList)
      [FsOp.mkdirAll (("/chroot/lib64/x86_64").toList),
       FsOp.copy (("/lib64/libm.so.6").toList)
         (("/chroot/lib64/x86_64/libm.so.6").toList),
       FsOp.mkdirAll (("/chroot/usr/bin").toList),
       FsOp.copy (("/usr/bin/qemu-x86_64").toList)
         (("/chroot/usr/bin/qemu-x86_64").toList),
       FsOp.mkdirAll (("/chroot/lib64").toList),
       FsOp.copy (("/lib64/ld-linux-x86-64.so.2").toList)
         (("/chroot/lib64/ld-linux-x86-64.so.2").toList)]
      rfl rfl rfl rfl⟩
